import Mathlib

/-!
Verification model of the campaign dispatch engine of the lottery-server
repository (file src/unnamed/part_003): the campaign lock helpers
(acquireCampaignLock / releaseCampaignLock), the Shopify directory client
(shopifyFetchWithRetry / fetchShopifyCustomers), the segmentation logic and
the hourly campaign runner route (GET /admin/campaign/run), together with the
campaign creation route (POST /admin/campaign/create).

JavaScript strings are modelled as lists of characters (`JStr`), with the
string operations the source uses (trim, toLowerCase, split, the
single-occurrence replace of "_" by "-") implemented by structural recursion
so that all definitions evaluate inside the kernel.  External collaborators
are parameters: the Shopify directory is a fetch function (or a concrete
customer list for the since_id pagination model), the unsubscribes table is a
predicate on addresses, the mailer is a predicate telling which sends
succeed, and the success of the terminal database update is a boolean.
-/

namespace LotteryDispatch

/-! ## JavaScript string primitives -/

/-- A JavaScript string, modelled as its list of characters. -/
abbrev JStr := List Char

/-- Embed a Lean string literal as a `JStr`. -/
def jstr (s : String) : JStr := s.toList

/-- Whitespace characters recognised by the model of String.prototype.trim. -/
def isSpaceChar (c : Char) : Bool := c = ' ' || c = '\t' || c = '\n' || c = '\r'

/-- Drop leading whitespace. -/
def dropLeadingSpace : JStr → JStr
  | [] => []
  | c :: cs => if isSpaceChar c then dropLeadingSpace cs else c :: cs

/-- Model of JavaScript s.trim(). -/
def jsTrim (s : JStr) : JStr :=
  (dropLeadingSpace ((dropLeadingSpace s.reverse)).reverse)

/-- ASCII lower-casing of one character, as toLowerCase acts on ASCII input. -/
def lowerChar (c : Char) : Char :=
  if 'A' ≤ c ∧ c ≤ 'Z' then Char.ofNat (c.toNat + 32) else c

/-- Model of JavaScript s.toLowerCase() on ASCII input. -/
def jsToLower (s : JStr) : JStr := s.map lowerChar

/-- Helper for splitting on commas, accumulating the current field reversed. -/
def splitCommaAux : JStr → JStr → List JStr
  | [], cur => [cur.reverse]
  | c :: cs, cur =>
    if c = ',' then cur.reverse :: splitCommaAux cs [] else splitCommaAux cs (c :: cur)

/-- Model of JavaScript s.split(","): the empty string yields one empty field. -/
def splitComma (s : JStr) : List JStr := splitCommaAux s []

/-- Model of JavaScript s.replace("_", "-"), which replaces only the first
occurrence of the underscore. -/
def replaceFirstUnderscore : JStr → JStr
  | [] => []
  | c :: cs => if c = '_' then '-' :: cs else c :: replaceFirstUnderscore cs

/-- Model of the prefix of s.split("-"), that is s.split("-")[0] (the part of
the string before the first hyphen). -/
def takeUntilDash : JStr → JStr
  | [] => []
  | c :: cs => if c = '-' then [] else c :: takeUntilDash cs

/-- Source function normEmail: String(e or "").trim().toLowerCase(). -/
def normEmail (e : JStr) : JStr := jsToLower (jsTrim e)

/-! ## Segmentation (the candidate-key logic of the campaign runner) -/

/-- One Shopify customer record, with the fields the runner reads.  An absent
or falsy email is modelled as the empty list. -/
structure Customer where
  id : Nat
  email : JStr
  locale : JStr
  tags : JStr
deriving Repr, DecidableEq

/-- Character class [a-z] under the case-insensitive regex flag. -/
def isAsciiLetter (c : Char) : Bool := decide ('a' ≤ lowerChar c ∧ lowerChar c ≤ 'z')

/-- Character class [0-9]. -/
def isDigitChar (c : Char) : Bool := decide ('0' ≤ c ∧ c ≤ '9')

/-- Character class [a-z0-9-] under the case-insensitive flag. -/
def isLocaleBodyChar (c : Char) : Bool := isAsciiLetter c || isDigitChar c || c = '-'

/-- The anchored case-insensitive regex lang-[a-z][a-z] used on tags. -/
def testLangMarkerTag (t : JStr) : Bool :=
  match t with
  | [l, a, n, g, h, c1, c2] =>
    lowerChar l = 'l' && lowerChar a = 'a' && lowerChar n = 'n' && lowerChar g = 'g' &&
      h = '-' && isAsciiLetter c1 && isAsciiLetter c2
  | _ => false

/-- The anchored case-insensitive regex of a bare two-letter tag. -/
def testBareLangTag (t : JStr) : Bool :=
  match t with
  | [c1, c2] => isAsciiLetter c1 && isAsciiLetter c2
  | _ => false

/-- The anchored case-insensitive regex [a-z][a-z]-[a-z0-9-][a-z0-9-]+ of a
tag resembling a full locale (two letters, a hyphen, two or more body
characters). -/
def testFullLocaleTag (t : JStr) : Bool :=
  match t with
  | c1 :: c2 :: h :: rest =>
    isAsciiLetter c1 && isAsciiLetter c2 && h = '-' &&
      decide (2 ≤ rest.length) && rest.all isLocaleBodyChar
  | _ => false

/-- Normalisation of the raw locale field: trim, lower-case, first underscore
to hyphen. -/
def normalizeLocale (raw : JStr) : JStr := replaceFirstUnderscore (jsToLower (jsTrim raw))

/-- The base language of a normalised locale: the part before the first
hyphen, trimmed (locale.split("-")[0] or "" then trim). -/
def baseLang (locale : JStr) : JStr := jsTrim (takeUntilDash locale)

/-- Normalisation of the raw comma-separated tag string: split on commas,
trim each field, drop empty fields, lower-case and map the first underscore
of each tag to a hyphen. -/
def normalizeTags (raw : JStr) : List JStr :=
  (((splitComma raw).map jsTrim).filter (· ≠ [])).map
    (fun t => replaceFirstUnderscore (jsToLower t))

/-- The language pulled from the tags: the first lang-xx tag stripped of its
lang- marker, else the first bare two-letter tag, else empty. -/
def langFromTags (tags : List JStr) : JStr :=
  match tags.find? testLangMarkerTag with
  | some t => t.drop 5
  | none =>
    match tags.find? testBareLangTag with
    | some t => t
    | none => []

/-- The candidate key set the runner builds for one customer: the base
language, the full normalised locale, the language pulled from tags, every
tag resembling a full locale, the first two characters of each such tag, and
every normalised tag, with empty entries dropped. -/
def candidateKeys (locale tagsRaw : JStr) : List JStr :=
  let loc := normalizeLocale locale
  let lang := baseLang loc
  let tags := normalizeTags tagsRaw
  let lft := langFromTags tags
  let fullTags := tags.filter testFullLocaleTag
  let baseFull := fullTags.map (fun t => t.take 2)
  (([lang, loc, lft] ++ fullTags ++ baseFull ++ tags)).filter (· ≠ [])

/-- The segment value the runner compares against: (camp.segment or
"").trim().toLowerCase(). -/
def campSegmentNorm (segment : Option JStr) : JStr := jsToLower (jsTrim (segment.getD []))

/-- The segmentation decision of the runner for one customer: an empty or
absent segment matches every customer, otherwise the segment must be a member
of the candidate key set. -/
def segMatches (segment : Option JStr) (c : Customer) : Bool :=
  let seg := campSegmentNorm segment
  seg = [] || (candidateKeys c.locale c.tags).contains seg

/-- Candidate key set as the specification words it, for comparison with
`candidateKeys`: the full locale, its base language, any tag recognised as a
language marker (a bare two-letter tag or a lang-code tag, contributing both
the tag and its stripped code), and any tag resembling a full locale.
Modelled from the spec, not from the source. -/
def specCandidateKeys (c : Customer) : List JStr :=
  let loc := normalizeLocale c.locale
  let lang := baseLang loc
  let tags := normalizeTags c.tags
  let markers := tags.filter (fun t => testBareLangTag t || testLangMarkerTag t)
  let markerCodes := (tags.filter testLangMarkerTag).map (fun t => t.drop 5)
  (([loc, lang] ++ markers ++ markerCodes ++ tags.filter testFullLocaleTag)).filter (· ≠ [])

/-! ## Campaign store and lock manager -/

/-- One row of the email_campaigns table, with the fields the engine touches.
Timestamps are abstract instants (natural numbers); lock_until is none when
the lock column is NULL. -/
structure Campaign where
  subject : JStr
  html : JStr
  segment : Option JStr
  per_hour_limit : Nat
  total_cap : Nat
  sent_count : Nat
  failed_count : Nat
  skipped_count : Nat
  since_id : Nat
  status : JStr
  last_run_at : Option Nat
  lock_until : Option Nat
deriving Repr, DecidableEq

/-- Status strings stored in the table. -/
def stActive : JStr := jstr "active"

/-- Terminal status written by the runner. -/
def stDone : JStr := jstr "done"

/-- The lock lease length in seconds for a requested duration in
milliseconds: max(1, floor(ms / 1000)). -/
def leaseSeconds (ms : Nat) : Nat := max 1 (ms / 1000)

/-- The default lock duration of acquireCampaignLock: four minutes. -/
def defaultLockMs : Nat := 4 * 60 * 1000

/-- Source function acquireCampaignLock: the single conditional UPDATE that
sets lock_until to now plus the lease only when the stored lease is NULL or
already expired, reporting through the changed-row count whether the caller
now holds the lock.  Returns the updated row and that report. -/
def acquireCampaignLock (now ms : Nat) (camp : Campaign) : Campaign × Bool :=
  let expired :=
    match camp.lock_until with
    | none => true
    | some t => decide (t < now)
  if expired then ({ camp with lock_until := some (now + leaseSeconds ms) }, true)
  else (camp, false)

/-- Source function releaseCampaignLock: unconditionally clears lock_until. -/
def releaseCampaignLock (camp : Campaign) : Campaign :=
  { camp with lock_until := none }

/-- The campaign-creation route: clamps the per-hour limit into [1, 5000]
(defaulting 500) and the total cap into [1, 5000000] (defaulting 50000),
normalises the segment (trim, lower-case, first underscore to hyphen; blank
stored as NULL), rejects a blank subject or body, and inserts the row with
status "active" and zeroed counters.  The numeric inputs use 0 for a falsy
request field. -/
def createCampaign (subject html segment : JStr) (perHourReq totalCapReq : Nat) :
    Option Campaign :=
  let subj := jsTrim subject
  let body := jsTrim html
  let seg := replaceFirstUnderscore (jsToLower (jsTrim segment))
  if subj = [] ∨ body = [] then none
  else
    some
      { subject := subj
        html := body
        segment := if seg = [] then none else some seg
        per_hour_limit := max 1 (min 5000 (if perHourReq = 0 then 500 else perHourReq))
        total_cap := max 1 (min 5000000 (if totalCapReq = 0 then 50000 else totalCapReq))
        sent_count := 0
        failed_count := 0
        skipped_count := 0
        since_id := 0
        status := stActive
        last_run_at := none
        lock_until := none }

/-! ## Directory client -/

/-- Failure of a directory page fetch: fetchShopifyCustomers threw. -/
inductive DirErr
  | unavailable
deriving Repr, DecidableEq

/-- A directory page fetch as the runner sees it: given the since_id cursor
and the requested page limit, either a page of customers or a thrown
error. -/
abbrev FetchFn := Nat → Nat → Except DirErr (List Customer)

/-- The limit clamp of fetchShopifyCustomers: Math.min(limit or 250, 250). -/
def shopifyLimitClamp (limit : Nat) : Nat := min (if limit = 0 then 250 else limit) 250

/-- Shopify since_id pagination over a fixed customer list held in stored
order: up to limit customers whose id exceeds the cursor. -/
def shopifyPage (dir : List Customer) (since limit : Nat) : List Customer :=
  (dir.filter (fun c => decide (since < c.id))).take limit

/-- A directory backed by a fixed customer list; never fails. -/
def dirFetch (dir : List Customer) : FetchFn :=
  fun since limit => .ok (shopifyPage dir since (shopifyLimitClamp limit))

/-! ## The hourly campaign runner -/

/-- An entry of the toSend slice: the customer id and the normalised
address. -/
structure Recipient where
  id : Nat
  email : JStr
deriving Repr, DecidableEq

/-- The effective per-invocation limit: Number(camp.per_hour_limit or 500). -/
def effPerHour (camp : Campaign) : Nat :=
  if camp.per_hour_limit = 0 then 500 else camp.per_hour_limit

/-- The effective total cap: Number(camp.total_cap or 100000). -/
def effTotalCap (camp : Campaign) : Nat :=
  if camp.total_cap = 0 then 100000 else camp.total_cap

/-- The inner for-loop over one fetched batch: skip customers with a falsy
email, skip customers failing the segment check, push the rest, and break as
soon as the slice reaches the per-hour limit or the total cap. -/
def collectBatch (seg : Option JStr) (perHour totalCap sentCount : Nat) :
    List Customer → List Recipient → List Recipient
  | [], acc => acc
  | c :: cs, acc =>
    if c.email = [] then collectBatch seg perHour totalCap sentCount cs acc
    else if segMatches seg c then
      let acc2 := acc ++ [⟨c.id, normEmail c.email⟩]
      if perHour ≤ acc2.length ∨ totalCap ≤ sentCount + acc2.length then acc2
      else collectBatch seg perHour totalCap sentCount cs acc2
    else collectBatch seg perHour totalCap sentCount cs acc

/-- The last id of a fetched batch (batch[batch.length - 1].id). -/
def lastId (batch : List Customer) : Nat := (batch.map Customer.id).getLastD 0

/-- The paging while-loop of the runner, with explicit fuel bounding the
number of iterations (the source loop has no intrinsic bound; every theorem
below either holds for all fuel or supplies enough fuel for the loop to
finish).  While the slice is shorter than the per-hour limit and the already
persisted sent count plus the slice is under the cap, fetch a page; an empty
page ends the loop; otherwise the cursor advances to the last id of the page
and the page is folded through the inner loop. -/
def collectLoop (fetch : FetchFn) (seg : Option JStr) (perHour totalCap sentCount : Nat) :
    Nat → Nat → List Recipient → Except DirErr (List Recipient × Nat)
  | 0, since, acc => .ok (acc, since)
  | fuel + 1, since, acc =>
    if acc.length < perHour ∧ sentCount + acc.length < totalCap then
      match fetch since (min 250 (perHour - acc.length)) with
      | .error e => .error e
      | .ok [] => .ok (acc, since)
      | .ok (c :: cs) =>
        collectLoop fetch seg perHour totalCap sentCount fuel (lastId (c :: cs))
          (collectBatch seg perHour totalCap sentCount (c :: cs) acc)
    else .ok (acc, since)

/-- The outcome of the send loop: the three counters of the invocation and
the addresses actually handed to mailer.sendMail, in order. -/
structure SendTally where
  sent : Nat
  failed : Nat
  skipped : Nat
  mailed : List JStr
deriving Repr, DecidableEq

/-- The send loop: an unsubscribed address is counted skipped and never
mailed; otherwise the send is attempted, counting sent on success and failed
on failure.  unsub is membership in the unsubscribes table (looked up under
normEmail, as isUnsubscribed does) and sendOk tells which sends succeed. -/
def sendLoop (unsub sendOk : JStr → Bool) : List Recipient → SendTally
  | [] => ⟨0, 0, 0, []⟩
  | r :: rs =>
    if unsub (normEmail r.email) then
      let t := sendLoop unsub sendOk rs
      { t with skipped := t.skipped + 1 }
    else if sendOk r.email then
      let t := sendLoop unsub sendOk rs
      { t with sent := t.sent + 1, mailed := r.email :: t.mailed }
    else
      let t := sendLoop unsub sendOk rs
      { t with failed := t.failed + 1, mailed := r.email :: t.mailed }

/-- The HTTP response of one runner invocation. -/
inductive RespKind
  | notActive (status : JStr)
  | lockHeld
  | ran (attempted sent failed skipped since_id total_sent : Nat) (status : JStr)
  | runFailed
deriving Repr, DecidableEq

/-- Everything one invocation produces: the response, the campaign row as it
is stored afterwards, the addresses handed to the mailer, and the collected
toSend slice. -/
structure RunOutcome where
  resp : RespKind
  final : Campaign
  mailed : List JStr
  collected : List Recipient
deriving Repr, DecidableEq

/-- The terminal phase of a successful batch: fold the invocation counters
into the row, compute the new status (done when the cap is reached, done when
the invocation processed nothing, else active), then attempt the single
UPDATE persisting counters, cursor, status, last_run_at and the lock release;
when that UPDATE fails the error is only logged and the row keeps its
previous value, lock included.  The JSON response is built from the in-memory
values either way. -/
def commitPhase (camp1 : Campaign) (persistOk : Bool) (now : Nat)
    (toSend : List Recipient) (since : Nat) (t : SendTally) : RunOutcome :=
  let totalCap := effTotalCap camp1
  let newSent := camp1.sent_count + t.sent
  let newFailed := camp1.failed_count + t.failed
  let newSkipped := camp1.skipped_count + t.skipped
  let st1 := if totalCap ≤ newSent then stDone else stActive
  let newStatus := if t.sent = 0 ∧ t.failed = 0 ∧ t.skipped = 0 then stDone else st1
  let camp2 :=
    if persistOk then
      { camp1 with
        sent_count := newSent
        failed_count := newFailed
        skipped_count := newSkipped
        since_id := since
        status := newStatus
        last_run_at := some now
        lock_until := none }
    else camp1
  ⟨.ran toSend.length t.sent t.failed t.skipped since newSent newStatus, camp2, t.mailed, toSend⟩

/-- The body of the runner once the lock is held: page the directory, send
the slice, commit.  A thrown directory error reaches the catch block, which
releases the lock and answers 500 with ok false; no progress field is
touched. -/
def runLocked (fetch : FetchFn) (unsub sendOk : JStr → Bool) (persistOk : Bool)
    (now fuel : Nat) (camp1 : Campaign) : RunOutcome :=
  match collectLoop fetch camp1.segment (effPerHour camp1) (effTotalCap camp1)
      camp1.sent_count fuel camp1.since_id [] with
  | .error _ => ⟨.runFailed, releaseCampaignLock camp1, [], []⟩
  | .ok (toSend, since) =>
    commitPhase camp1 persistOk now toSend since (sendLoop unsub sendOk toSend)

/-- One invocation of GET /admin/campaign/run for an existing campaign row:
a non-active campaign is reported as-is and nothing happens; then the lock is
attempted and on contention the invocation stops, mutating nothing and
answering that a run is already in progress; otherwise the locked body
runs. -/
def runCampaign (fetch : FetchFn) (unsub sendOk : JStr → Bool) (persistOk : Bool)
    (now fuel : Nat) (camp : Campaign) : RunOutcome :=
  if camp.status = stActive then
    match acquireCampaignLock now defaultLockMs camp with
    | (camp1, true) => runLocked fetch unsub sendOk persistOk now fuel camp1
    | (_, false) => ⟨.lockHeld, camp, [], []⟩
  else ⟨.notActive camp.status, camp, [], []⟩

/-! ## The rate-limit-aware retry loop of the directory client

shopifyFetchWithRetry repeatedly issues the same request; the server's answer
to the k-th issue (k counted from 0) is modelled by a schedule.  A 429 answer
carries the optional numeric Retry-After header; any other HTTP answer
carries its status code; a rejected fetch promise is a transport error that
propagates out of the loop at once.  The model returns the index of the
answer the loop ends on together with the list of backoff waits (in
milliseconds) slept between issues; the unconditional pacing sleeps of 600ms
before the first issue and 200ms before each retry are constants and are not
recorded. -/

/-- One answer of the server to one issue of the request. -/
inductive FetchAttempt
  | rateLimited (retryAfter : Option Nat)
  | response (status : Nat)
  | netError
deriving Repr, DecidableEq

/-- Number(header) or 1: an absent or zero Retry-After hint becomes 1. -/
def jsNumberOr1 : Option Nat → Nat
  | none => 1
  | some 0 => 1
  | some n => n

/-- The backoff slept after the attempt-th 429: min(5000, hint * 1000 *
attempt) milliseconds. -/
def backoffWait (hint : Option Nat) (attempt : Nat) : Nat :=
  min 5000 (jsNumberOr1 hint * 1000 * attempt)

/-- The retry loop from issue k with the given number of retries remaining:
a non-429 answer (or a transport error) ends the loop at once; a 429 answer
with no retries left is returned as-is; otherwise the loop sleeps the backoff
and reissues the request. -/
def retryAux (resp : Nat → FetchAttempt) : Nat → Nat → Nat × List Nat
  | k, remaining =>
    match resp k with
    | .rateLimited hint =>
      match remaining with
      | 0 => (k, [])
      | r + 1 =>
        let rest := retryAux resp (k + 1) r
        (rest.1, backoffWait hint (k + 1) :: rest.2)
    | _ => (k, [])

/-- Source function shopifyFetchWithRetry, with its maxRetries bound: the
index of the answer returned to the caller and the backoff waits slept. -/
def shopifyFetchWithRetry (resp : Nat → FetchAttempt) (maxRetries : Nat) : Nat × List Nat :=
  retryAux resp 0 maxRetries

/-- HTTP response.ok: a status in [200, 300). -/
def httpOk (status : Nat) : Bool := decide (200 ≤ status ∧ status < 300)

/-- What fetchShopifyCustomers does with the answer the retry loop ends on:
a non-ok answer (a 429 that exhausted the retries, any error status, or a
transport error) is thrown, which the runner's catch block turns into the
aborted invocation; an ok answer yields the page.  The number of issues of
the request is returned alongside. -/
inductive FetchOutcome
  | ok (calls : Nat)
  | unavailable (calls : Nat)
deriving Repr, DecidableEq

/-- Source function fetchShopifyCustomers, seen through the retry model: it
throws exactly when the answer the loop ends on is not an ok response. -/
def fetchShopifyCustomersOutcome (resp : Nat → FetchAttempt) : FetchOutcome :=
  let k := (shopifyFetchWithRetry resp 6).1
  match resp k with
  | .rateLimited _ => .unavailable (k + 1)
  | .response status => if httpOk status then .ok (k + 1) else .unavailable (k + 1)
  | .netError => .unavailable (k + 1)

/-- Recogniser of a rate-limit answer. -/
def isRateLimited : FetchAttempt → Bool
  | .rateLimited _ => true
  | _ => false

/-- The Retry-After hint of an answer (none for a non-429 answer). -/
def hintOf : FetchAttempt → Option Nat
  | .rateLimited h => h
  | _ => none

/-! ## Concrete data used by witnesses and counterexamples -/

/-- A directory of three matching customers (two size-2 pages under a
per-hour limit of 2). -/
def dirThree : List Customer :=
  [⟨1, jstr "a@x.com", jstr "en", jstr ""⟩,
   ⟨2, jstr "b@x.com", jstr "en", jstr ""⟩,
   ⟨3, jstr "c@x.com", jstr "en", jstr ""⟩]

/-- The campaign of the paging scenario: per-invocation limit 2, cap 100. -/
def campScenario : Campaign :=
  { subject := jstr "s", html := jstr "h", segment := none,
    per_hour_limit := 2, total_cap := 100,
    sent_count := 0, failed_count := 0, skipped_count := 0, since_id := 0,
    status := stActive, last_run_at := none, lock_until := none }

/-- An empty suppression registry. -/
def noUnsub : JStr → Bool := fun _ => false

/-- A mailer for which every send succeeds. -/
def allOk : JStr → Bool := fun _ => true

/-- A directory whose first customer is suppressed and whose second is not. -/
def dirSup : List Customer :=
  [⟨1, jstr "sup@x.com", jstr "en", jstr ""⟩,
   ⟨2, jstr "ok@x.com", jstr "en", jstr ""⟩]

/-- The suppression registry holding exactly sup@x.com. -/
def unsubSup : JStr → Bool := fun e => e = jstr "sup@x.com"

/-- The scenario campaign with a per-invocation limit of 1. -/
def campQuotaOne : Campaign := { campScenario with per_hour_limit := 1 }

/-- A directory of two suppressed customers on one page. -/
def dirSupPage : List Customer :=
  [⟨5, jstr "sup@x.com", jstr "en", jstr ""⟩,
   ⟨7, jstr "sup2@x.com", jstr "en", jstr ""⟩]

/-- The suppression registry holding both addresses of dirSupPage. -/
def unsubBoth : JStr → Bool := fun e => e = jstr "sup@x.com" || e = jstr "sup2@x.com"

/-- A directory whose first page matches nothing (locale fr against segment
en) and whose second page holds one match. -/
def dirFiltered : List Customer :=
  [⟨1, jstr "f1@x.com", jstr "fr", jstr ""⟩,
   ⟨2, jstr "f2@x.com", jstr "fr", jstr ""⟩,
   ⟨3, jstr "e@x.com", jstr "en", jstr ""⟩]

/-- The scenario campaign restricted to segment en. -/
def campSegEn : Campaign := { campScenario with segment := some (jstr "en") }

/-- The customer of the segmentation examples: locale en-GB, tag lang-en. -/
def custEnGB : Customer := ⟨1, jstr "e@x.com", jstr "en-GB", jstr "lang-en"⟩

/-- A customer whose only segmentation signal is the free-text tag vip. -/
def custVip : Customer := ⟨2, jstr "v@x.com", jstr "", jstr "vip"⟩

/-- A customer whose only signal is the base language en. -/
def custBaseOnly : Customer := ⟨3, jstr "b@x.com", jstr "en", jstr ""⟩

/-- A customer tagged with two language markers. -/
def custTwoLang : Customer := ⟨4, jstr "t@x.com", jstr "", jstr "lang-en,lang-fr"⟩

/-- A customer whose only signal is a tag resembling a full locale. -/
def custFrCa : Customer := ⟨5, jstr "f@x.com", jstr "", jstr "fr-ca"⟩

/-- A server schedule answering one 429 with a 2-second hint, then 200. -/
def respOneRL : Nat → FetchAttempt :=
  fun j => if j = 0 then .rateLimited (some 2) else .response 200

/-- A server schedule answering 429 with no hint forever. -/
def respAllRL : Nat → FetchAttempt := fun _ => .rateLimited none

/-- A server schedule answering a 500 immediately. -/
def respServerErr : Nat → FetchAttempt := fun _ => .response 500

/-- A campaign whose lock is held and unexpired at instant 100. -/
def campLocked : Campaign := { campScenario with lock_until := some 500 }

/-- A directory fetch that always throws. -/
def failFetch : FetchFn := fun _ _ => .error .unavailable

/-! ## Loop lemmas -/

theorem collectBatch_length_le (seg : Option JStr) (ph tc sc : Nat) :
    ∀ (batch : List Customer) (acc : List Recipient),
      acc.length < ph → sc + acc.length < tc →
      (collectBatch seg ph tc sc batch acc).length ≤ ph ∧
        sc + (collectBatch seg ph tc sc batch acc).length ≤ tc := by
  intro batch
  induction batch with
  | nil =>
    intro acc h1 h2
    simp only [collectBatch]
    omega
  | cons c cs ih =>
    intro acc h1 h2
    simp only [collectBatch]
    split
    · exact ih acc h1 h2
    · split
      · split
        · rename_i hstop
          simp only [List.length_append, List.length_cons, List.length_nil] at *
          omega
        · rename_i hstop
          simp only [List.length_append, List.length_cons, List.length_nil] at hstop
          refine ih _ ?_ ?_ <;>
            simp only [List.length_append, List.length_cons, List.length_nil] <;> omega
      · exact ih acc h1 h2

theorem collectLoop_ok_bounds (fetch : FetchFn) (seg : Option JStr) (ph tc sc : Nat) :
    ∀ (fuel since : Nat) (acc : List Recipient) (p : List Recipient × Nat),
      collectLoop fetch seg ph tc sc fuel since acc = .ok p →
      (acc.length ≤ ph → p.1.length ≤ ph) ∧
        (sc + acc.length ≤ tc → sc + p.1.length ≤ tc) := by
  intro fuel
  induction fuel with
  | zero =>
    intro since acc p h
    simp only [collectLoop, Except.ok.injEq] at h
    subst h
    exact ⟨id, id⟩
  | succ n ih =>
    intro since acc p h
    simp only [collectLoop] at h
    split at h
    · rename_i hcond
      split at h
      · exact absurd h (by simp)
      · rename_i heq
        simp only [Except.ok.injEq] at h
        subst h
        exact ⟨id, id⟩
      · rename_i c cs heq
        have hb := collectBatch_length_le seg ph tc sc (c :: cs) acc hcond.1 hcond.2
        have := ih _ _ _ h
        exact ⟨fun _ => this.1 hb.1, fun _ => this.2 (by omega)⟩
    · simp only [Except.ok.injEq] at h
      subst h
      exact ⟨id, id⟩

theorem sendLoop_counts (unsub sendOk : JStr → Bool) :
    ∀ rs : List Recipient,
      (sendLoop unsub sendOk rs).sent + (sendLoop unsub sendOk rs).failed +
          (sendLoop unsub sendOk rs).skipped = rs.length ∧
        (sendLoop unsub sendOk rs).skipped =
          (rs.filter (fun r => unsub (normEmail r.email))).length := by
  intro rs
  induction rs with
  | nil => simp [sendLoop]
  | cons r rs ih =>
    simp only [sendLoop]
    split
    · rename_i hu
      simp only [List.filter_cons, hu, if_pos, List.length_cons]
      omega
    · rename_i hu
      simp only [Bool.not_eq_true] at hu
      split <;>
        simp only [List.filter_cons, hu, Bool.false_eq_true, if_false, List.length_cons] <;>
        omega

theorem sendLoop_mailed_not_suppressed (unsub sendOk : JStr → Bool) :
    ∀ (rs : List Recipient) (e : JStr),
      e ∈ (sendLoop unsub sendOk rs).mailed → unsub (normEmail e) = false := by
  intro rs
  induction rs with
  | nil => intro e h; simp [sendLoop] at h
  | cons r rs ih =>
    intro e h
    simp only [sendLoop] at h
    split at h
    · exact ih e h
    · rename_i hu
      simp only [Bool.not_eq_true] at hu
      split at h <;>
        (simp only [List.mem_cons] at h
         rcases h with h | h
         · subst h; exact hu
         · exact ih e h)

theorem collectBatch_mem (seg : Option JStr) (ph tc sc : Nat) :
    ∀ (batch : List Customer) (acc : List Recipient) (r : Recipient),
      r ∈ collectBatch seg ph tc sc batch acc →
      r ∈ acc ∨ ∃ c ∈ batch, c.email ≠ [] ∧ segMatches seg c = true ∧
        r = ⟨c.id, normEmail c.email⟩ := by
  intro batch
  induction batch with
  | nil =>
    intro acc r h
    simp only [collectBatch] at h
    exact Or.inl h
  | cons c cs ih =>
    intro acc r h
    simp only [collectBatch] at h
    split at h
    · rcases ih acc r h with h | ⟨c2, hc2, h2⟩
      · exact Or.inl h
      · exact Or.inr ⟨c2, List.mem_cons_of_mem _ hc2, h2⟩
    · rename_i hmail
      split at h
      · rename_i hseg
        have hpush : ∀ r : Recipient, r ∈ acc ++ [(⟨c.id, normEmail c.email⟩ : Recipient)] →
            r ∈ acc ∨ ∃ c2 ∈ c :: cs, c2.email ≠ [] ∧ segMatches seg c2 = true ∧
              r = ⟨c2.id, normEmail c2.email⟩ := by
          intro r hr
          rcases List.mem_append.1 hr with hr | hr
          · exact Or.inl hr
          · refine Or.inr ⟨c, List.mem_cons_self c cs, hmail, hseg, ?_⟩
            simpa using hr
        split at h
        · exact hpush r h
        · rcases ih _ r h with h | ⟨c2, hc2, h2⟩
          · exact hpush r h
          · exact Or.inr ⟨c2, List.mem_cons_of_mem _ hc2, h2⟩
      · rcases ih acc r h with h | ⟨c2, hc2, h2⟩
        · exact Or.inl h
        · exact Or.inr ⟨c2, List.mem_cons_of_mem _ hc2, h2⟩

theorem shopifyPage_subset (dir : List Customer) (since limit : Nat) :
    ∀ c ∈ shopifyPage dir since limit, c ∈ dir := by
  intro c hc
  have h2 := List.take_subset limit _ hc
  exact (List.mem_filter.1 h2).1

theorem collectLoop_mem_dir (dir : List Customer) (seg : Option JStr) (ph tc sc : Nat) :
    ∀ (fuel since : Nat) (acc : List Recipient) (p : List Recipient × Nat) (r : Recipient),
      collectLoop (dirFetch dir) seg ph tc sc fuel since acc = .ok p →
      r ∈ p.1 →
      r ∈ acc ∨ ∃ c ∈ dir, c.email ≠ [] ∧ segMatches seg c = true ∧
        r = ⟨c.id, normEmail c.email⟩ := by
  intro fuel
  induction fuel with
  | zero =>
    intro since acc p r h hr
    simp only [collectLoop, Except.ok.injEq] at h
    subst h
    exact Or.inl hr
  | succ n ih =>
    intro since acc p r h hr
    simp only [collectLoop] at h
    split at h
    · split at h
      · exact absurd h (by simp)
      · rename_i heq
        simp only [Except.ok.injEq] at h
        subst h
        exact Or.inl hr
      · rename_i c cs heq
        simp only [dirFetch, Except.ok.injEq] at heq
        rcases ih _ _ _ r h hr with hmem | ⟨c2, hc2, h2⟩
        · rcases collectBatch_mem seg ph tc sc (c :: cs) acc r hmem with hmem | ⟨c2, hc2, h2⟩
          · exact Or.inl hmem
          · refine Or.inr ⟨c2, ?_, h2⟩
            exact shopifyPage_subset dir since _ c2 (heq ▸ hc2)
        · exact Or.inr ⟨c2, hc2, h2⟩
    · simp only [Except.ok.injEq] at h
      subst h
      exact Or.inl hr

theorem runCampaign_collected_indep (fetch : FetchFn) (u1 s1 : JStr → Bool) (p1 : Bool)
    (u2 s2 : JStr → Bool) (p2 : Bool) (now fuel : Nat) (camp : Campaign) :
    (runCampaign fetch u1 s1 p1 now fuel camp).collected =
      (runCampaign fetch u2 s2 p2 now fuel camp).collected := by
  simp only [runCampaign]
  split
  · split
    · simp only [runLocked]
      split <;> simp [commitPhase]
    · rfl
  · rfl

/-- The cursor reported by an invocation, when it ran a batch. -/
def respSince : RespKind → Option Nat
  | .ran _ _ _ _ since _ _ => some since
  | _ => none

theorem runCampaign_cursor_indep (fetch : FetchFn) (u1 s1 : JStr → Bool) (p1 : Bool)
    (u2 s2 : JStr → Bool) (p2 : Bool) (now fuel : Nat) (camp : Campaign) :
    respSince (runCampaign fetch u1 s1 p1 now fuel camp).resp =
      respSince (runCampaign fetch u2 s2 p2 now fuel camp).resp := by
  simp only [runCampaign]
  split
  · split
    · simp only [runLocked]
      split <;> simp [commitPhase, respSince]
    · rfl
  · rfl

theorem acquire_true_iff (now ms : Nat) (camp : Campaign) :
    (acquireCampaignLock now ms camp).2 = true ↔
      (camp.lock_until = none ∨ ∃ t, camp.lock_until = some t ∧ t < now) := by
  simp only [acquireCampaignLock]
  cases h : camp.lock_until with
  | none => simp
  | some t =>
    by_cases ht : t < now <;> simp [ht]

theorem acquire_eq_of_true {now ms : Nat} {camp camp1 : Campaign}
    (h : acquireCampaignLock now ms camp = (camp1, true)) :
    camp1 = { camp with lock_until := some (now + leaseSeconds ms) } := by
  simp only [acquireCampaignLock] at h
  split at h
  · simp only [Prod.mk.injEq] at h
    exact h.1.symm
  · simp at h

theorem acquire_eq_of_false {now ms : Nat} {camp camp1 : Campaign}
    (h : acquireCampaignLock now ms camp = (camp1, false)) : camp1 = camp := by
  simp only [acquireCampaignLock] at h
  split at h
  · simp at h
  · simp only [Prod.mk.injEq] at h
    exact h.1.symm

theorem runCampaign_ran_inv {fetch : FetchFn} {unsub sendOk : JStr → Bool} {persistOk : Bool}
    {now fuel : Nat} {camp : Campaign} {a s f k since ts : Nat} {st : JStr}
    (h : (runCampaign fetch unsub sendOk persistOk now fuel camp).resp =
      .ran a s f k since ts st) :
    camp.status = stActive ∧
    ∃ toSend : List Recipient,
      collectLoop fetch camp.segment (effPerHour camp) (effTotalCap camp) camp.sent_count fuel
          camp.since_id [] = .ok (toSend, since) ∧
      a = toSend.length ∧
      s = (sendLoop unsub sendOk toSend).sent ∧
      f = (sendLoop unsub sendOk toSend).failed ∧
      k = (sendLoop unsub sendOk toSend).skipped ∧
      ts = camp.sent_count + s ∧
      st = (if s = 0 ∧ f = 0 ∧ k = 0 then stDone
            else if effTotalCap camp ≤ ts then stDone else stActive) := by
  simp only [runCampaign] at h
  split at h
  · rename_i hActive
    split at h
    · rename_i camp1 heq
      have hc1 := acquire_eq_of_true heq
      subst hc1
      simp only [runLocked] at h
      split at h
      · simp [RespKind.ran] at h
      · rename_i toSend since0 hcoll
        simp only [commitPhase, RespKind.ran.injEq] at h
        obtain ⟨ha, hs, hf, hk, hsince, hts, hst⟩ := h
        subst hsince
        refine ⟨hActive, toSend, ?_, ha.symm, hs.symm, hf.symm, hk.symm, ?_, ?_⟩
        · exact hcoll
        · omega
        · subst hs hf hk hts
          exact hst.symm
    · simp [RespKind.lockHeld] at h
  · simp [RespKind.notActive] at h

/-- The cap invariant of a campaign row: the persisted sent count never
exceeds the effective total cap, and a row sitting exactly at the cap is
marked done. -/
def CapInvariant (camp : Campaign) : Prop :=
  camp.sent_count ≤ effTotalCap camp ∧
    (camp.sent_count = effTotalCap camp → camp.status = stDone)

instance (camp : Campaign) : Decidable (CapInvariant camp) := by
  unfold CapInvariant
  infer_instance

theorem commitPhase_capInvariant (camp1 : Campaign) (persistOk : Bool) (now : Nat)
    (toSend : List Recipient) (since : Nat) (t : SendTally)
    (hInv : CapInvariant camp1)
    (hlen : camp1.sent_count + toSend.length ≤ effTotalCap camp1)
    (hsum : t.sent + t.failed + t.skipped = toSend.length) :
    CapInvariant (commitPhase camp1 persistOk now toSend since t).final := by
  have hnew : camp1.sent_count + t.sent ≤ effTotalCap camp1 := by omega
  simp only [commitPhase]
  split
  · refine ⟨hnew, ?_⟩
    intro hEq
    have hEq2 : camp1.sent_count + t.sent = effTotalCap camp1 := hEq
    show (if t.sent = 0 ∧ t.failed = 0 ∧ t.skipped = 0 then stDone
          else if effTotalCap camp1 ≤ camp1.sent_count + t.sent then stDone else stActive) =
        stDone
    split
    · rfl
    · split
      · rfl
      · rename_i hlt
        exact absurd (Nat.le_of_eq hEq2.symm) hlt
  · exact hInv

theorem capInvariant_preserved (fetch : FetchFn) (unsub sendOk : JStr → Bool)
    (persistOk : Bool) (now fuel : Nat) (camp : Campaign) (hInv : CapInvariant camp) :
    CapInvariant (runCampaign fetch unsub sendOk persistOk now fuel camp).final := by
  simp only [runCampaign]
  split
  · split
    · rename_i camp1 heq
      have hc1 := acquire_eq_of_true heq
      subst hc1
      simp only [runLocked]
      split
      · exact hInv
      · rename_i toSend since0 hcoll
        have hb := (collectLoop_ok_bounds fetch camp.segment (effPerHour camp)
            (effTotalCap camp) camp.sent_count fuel camp.since_id [] (toSend, since0) hcoll).2
            (by simpa using hInv.1)
        have hsum := (sendLoop_counts unsub sendOk toSend).1
        exact commitPhase_capInvariant _ persistOk now toSend since0 _ hInv hb hsum
    · exact hInv
  · exact hInv

theorem one_le_effTotalCap (c : Campaign) : 1 ≤ effTotalCap c := by
  simp only [effTotalCap]
  split <;> omega

theorem capInvariant_create (subject html segment : JStr) (phr tcr : Nat) (camp : Campaign)
    (h : createCampaign subject html segment phr tcr = some camp) : CapInvariant camp := by
  simp only [createCampaign] at h
  split at h
  · simp at h
  · simp only [Option.some.injEq] at h
    have hsent : camp.sent_count = 0 := by rw [← h]
    have h1 := one_le_effTotalCap camp
    refine ⟨by omega, fun hEq => absurd hEq (by omega)⟩

theorem acquire_of_snd_true {now ms : Nat} {camp : Campaign}
    (h : (acquireCampaignLock now ms camp).2 = true) :
    acquireCampaignLock now ms camp =
      ({ camp with lock_until := some (now + leaseSeconds ms) }, true) := by
  simp only [acquireCampaignLock] at h ⊢
  split at h
  · rename_i hc
    simp [hc]
  · simp at h

theorem runCampaign_eq_runLocked {fetch : FetchFn} {unsub sendOk : JStr → Bool}
    {persistOk : Bool} {now fuel : Nat} {camp camp1 : Campaign}
    (hActive : camp.status = stActive)
    (heq : acquireCampaignLock now defaultLockMs camp = (camp1, true)) :
    runCampaign fetch unsub sendOk persistOk now fuel camp =
      runLocked fetch unsub sendOk persistOk now fuel camp1 := by
  simp only [runCampaign, hActive, if_pos]
  split
  · rename_i c1 h1
    rw [h1] at heq
    simp only [Prod.mk.injEq] at heq
    rw [heq.1]
  · rename_i c1 h1
    rw [h1] at heq
    simp at heq

/-! ## The claims -/

/-- C1: the lock acquire operation atomically sets the lock lease to now plus
the lease duration exactly when the current lease is unset or already
expired, returning whether the caller now holds it, and leaves the row
unchanged otherwise; and whenever acquire reports false, the run invocation
performs no further action on the campaign: it mutates nothing, mails
nothing, collects nothing and answers that a run is already in progress. -/
theorem C1_lock_acquire_semantics :
    (∀ (now ms : Nat) (camp : Campaign),
        ((acquireCampaignLock now ms camp).2 = true ↔
          (camp.lock_until = none ∨ ∃ t, camp.lock_until = some t ∧ t < now)) ∧
        ((acquireCampaignLock now ms camp).2 = true →
          (acquireCampaignLock now ms camp).1.lock_until = some (now + leaseSeconds ms)) ∧
        ((acquireCampaignLock now ms camp).2 = false →
          (acquireCampaignLock now ms camp).1 = camp)) ∧
    ∀ (fetch : FetchFn) (unsub sendOk : JStr → Bool) (persistOk : Bool) (now fuel : Nat)
      (camp : Campaign),
      (acquireCampaignLock now defaultLockMs camp).2 = false →
      camp.status = stActive →
      runCampaign fetch unsub sendOk persistOk now fuel camp = ⟨.lockHeld, camp, [], []⟩ := by
  constructor
  · intro now ms camp
    refine ⟨acquire_true_iff now ms camp, ?_, ?_⟩ <;>
      (simp only [acquireCampaignLock]
       split <;> simp)
  · intro fetch unsub sendOk persistOk now fuel camp hfail hActive
    simp only [runCampaign, hActive, if_pos]
    split
    · rename_i camp1 heq
      rw [heq] at hfail
      simp at hfail
    · rfl

/-- C1 witness: a successful acquire at instant 100 on an unlocked campaign
sets the lease, and an invocation against a campaign whose lease runs to
instant 500 stops at the lock with no action. -/
theorem C1_lock_witness :
    (acquireCampaignLock 100 defaultLockMs campScenario).1.lock_until = some (100 + 240) ∧
    runCampaign (dirFetch dirThree) noUnsub allOk true 100 10 campLocked =
      ⟨.lockHeld, campLocked, [], []⟩ :=
  ⟨(C1_lock_acquire_semantics.1 100 defaultLockMs campScenario).2.1 (by decide),
   C1_lock_acquire_semantics.2 (dirFetch dirThree) noUnsub allOk true 100 10 campLocked
     (by decide) (by decide)⟩

/-- C2: a freshly created campaign satisfies the cap invariant (sent count at
most the total cap, and status done as soon as the sent count equals the
cap), and every invocation of the runner, whatever the directory, the
suppression registry, the mailer and the persistence outcome do, preserves it
on the stored row. -/
theorem C2_sent_le_cap :
    (∀ (subject html segment : JStr) (phr tcr : Nat) (camp : Campaign),
        createCampaign subject html segment phr tcr = some camp → CapInvariant camp) ∧
    ∀ (fetch : FetchFn) (unsub sendOk : JStr → Bool) (persistOk : Bool) (now fuel : Nat)
      (camp : Campaign), CapInvariant camp →
        CapInvariant (runCampaign fetch unsub sendOk persistOk now fuel camp).final :=
  ⟨capInvariant_create, capInvariant_preserved⟩

/-- C2 witness: the invariant holds after a concrete invocation of the paging
scenario, and for a concretely created campaign. -/
theorem C2_sent_le_cap_witness :
    CapInvariant (runCampaign (dirFetch dirThree) noUnsub allOk true 0 10 campScenario).final ∧
    ∀ camp, createCampaign (jstr "s") (jstr "h") (jstr "") 2 100 = some camp → CapInvariant camp :=
  ⟨C2_sent_le_cap.2 (dirFetch dirThree) noUnsub allOk true 0 10 campScenario (by decide),
   fun camp h => C2_sent_le_cap.1 (jstr "s") (jstr "h") (jstr "") 2 100 camp h⟩

/-- C3 counterexample: in the stated scenario (per-invocation limit 2, total
cap 100, three unsuppressed matching customers over two size-2 pages), the
second invocation sends 1 and exhausts the directory, yet the computed and
persisted status is active, not done as the claim asserts: the source marks
done only when the cap is reached or the invocation processed zero
recipients, not when the directory is exhausted. -/
theorem C3_status_counterexample :
    (runCampaign (dirFetch dirThree) noUnsub allOk true 0 10 campScenario).resp =
        .ran 2 2 0 0 2 2 stActive ∧
    (runCampaign (dirFetch dirThree) noUnsub allOk true 1 10
        (runCampaign (dirFetch dirThree) noUnsub allOk true 0 10 campScenario).final).resp =
      .ran 1 1 0 0 3 3 stActive ∧
    (runCampaign (dirFetch dirThree) noUnsub allOk true 1 10
        (runCampaign (dirFetch dirThree) noUnsub allOk true 0 10 campScenario).final).final.status
      = stActive := by
  exact ⟨by decide, by decide, by decide⟩

/-- C3 amended: at the end of every invocation that ran a batch, the total
sent is the previous count plus this invocation's sent, and the new status is
done exactly when the cap is now reached or when the invocation processed
zero recipients (sent, failed and skipped all zero); active otherwise.  A
directory exhausted with work still done in the same invocation therefore
stays active; in the scenario the second invocation sends 1 and stays active,
and a third invocation, which processes nothing, turns the status to done. -/
theorem C3_status_rule :
    (∀ (fetch : FetchFn) (unsub sendOk : JStr → Bool) (persistOk : Bool) (now fuel : Nat)
        (camp : Campaign) (a s f k since ts : Nat) (st : JStr),
        (runCampaign fetch unsub sendOk persistOk now fuel camp).resp =
          .ran a s f k since ts st →
        ts = camp.sent_count + s ∧
          st = (if s = 0 ∧ f = 0 ∧ k = 0 then stDone
                else if effTotalCap camp ≤ ts then stDone else stActive)) ∧
    (runCampaign (dirFetch dirThree) noUnsub allOk true 2 10
        (runCampaign (dirFetch dirThree) noUnsub allOk true 1 10
          (runCampaign (dirFetch dirThree) noUnsub allOk true 0 10 campScenario).final).final).resp
      = .ran 0 0 0 0 3 3 stDone ∧
    (runCampaign (dirFetch dirThree) noUnsub allOk true 2 10
        (runCampaign (dirFetch dirThree) noUnsub allOk true 1 10
          (runCampaign (dirFetch dirThree) noUnsub allOk true 0 10 campScenario).final).final).final.status
      = stDone := by
  refine ⟨?_, by decide, by decide⟩
  intro fetch unsub sendOk persistOk now fuel camp a s f k since ts st h
  obtain ⟨-, toSend, -, -, hs, hf, hk, hts, hst⟩ := runCampaign_ran_inv h
  exact ⟨hts, hst⟩

/-- C3 amended witness: the status rule applied to the first invocation of
the scenario. -/
theorem C3_status_rule_witness :
    (2 : Nat) = campScenario.sent_count + 2 ∧
      stActive = (if (2 : Nat) = 0 ∧ (0 : Nat) = 0 ∧ (0 : Nat) = 0 then stDone
        else if effTotalCap campScenario ≤ 2 then stDone else stActive) :=
  C3_status_rule.1 (dirFetch dirThree) noUnsub allOk true 0 10 campScenario 2 2 0 0 2 2 stActive
    (by decide)

theorem runCampaign_collected_mem (dir : List Customer) (unsub sendOk : JStr → Bool)
    (persistOk : Bool) (now fuel : Nat) (camp : Campaign) (r : Recipient)
    (hr : r ∈ (runCampaign (dirFetch dir) unsub sendOk persistOk now fuel camp).collected) :
    ∃ c ∈ dir, c.email ≠ [] ∧ segMatches camp.segment c = true ∧
      r = ⟨c.id, normEmail c.email⟩ := by
  simp only [runCampaign] at hr
  split at hr
  · split at hr
    · rename_i camp1 heq
      have hc1 := acquire_eq_of_true heq
      subst hc1
      simp only [runLocked] at hr
      split at hr
      · simp at hr
      · rename_i toSend since0 hcoll
        simp only [commitPhase] at hr
        rcases collectLoop_mem_dir dir camp.segment (effPerHour camp) (effTotalCap camp)
            camp.sent_count fuel camp.since_id [] (toSend, since0) r hcoll hr with h | h
        · simp at h
        · exact h
    · simp at hr
  · simp at hr

theorem runCampaign_collected_bounds (fetch : FetchFn) (unsub sendOk : JStr → Bool)
    (persistOk : Bool) (now fuel : Nat) (camp : Campaign) :
    (runCampaign fetch unsub sendOk persistOk now fuel camp).collected.length ≤
        effPerHour camp ∧
      (camp.sent_count ≤ effTotalCap camp →
        camp.sent_count +
            (runCampaign fetch unsub sendOk persistOk now fuel camp).collected.length ≤
          effTotalCap camp) := by
  simp only [runCampaign]
  split
  · split
    · rename_i camp1 heq
      have hc1 := acquire_eq_of_true heq
      subst hc1
      simp only [runLocked]
      split
      · simp
      · rename_i toSend since0 hcoll
        have hb := collectLoop_ok_bounds fetch camp.segment (effPerHour camp)
          (effTotalCap camp) camp.sent_count fuel camp.since_id [] (toSend, since0) hcoll
        simp only [commitPhase]
        exact ⟨hb.1 (Nat.zero_le _), fun h => hb.2 (by simpa using h)⟩
    · simp
  · simp

/-- C4 counterexample: with a per-invocation limit of 1 and a directory whose
first customer is suppressed, the invocation accumulates exactly the
suppressed customer — the accumulation step does not consult the Suppression
Registry, so the suppressed recipient fills the whole quota, nothing is
mailed, and the eligible second customer is never reached, contrary to the
claim that only unsuppressed customers are accumulated until remainingQuota
eligible recipients are collected. -/
theorem C4_accumulation_counterexample :
    (runCampaign (dirFetch dirSup) unsubSup allOk true 0 10 campQuotaOne).collected =
        [⟨1, jstr "sup@x.com"⟩] ∧
      unsubSup (normEmail (jstr "sup@x.com")) = true ∧
      (runCampaign (dirFetch dirSup) unsubSup allOk true 0 10 campQuotaOne).mailed = [] ∧
      (runCampaign (dirFetch dirSup) unsubSup allOk true 0 10 campQuotaOne).resp =
        .ran 1 0 0 1 1 0 stActive := by
  exact ⟨by decide, by decide, by decide, by decide⟩

/-- C4 amended: during the paging phase the runner accumulates exactly the
customers with a non-empty email that pass Segmentation — the Suppression
Registry is not consulted during accumulation (suppressed customers are
collected too, consume quota, and are only classified skipped at send time).
The accumulation stops once the slice reaches the per-invocation limit, or
the cap net of the persisted sent count, or the directory is exhausted.  The
cursor recorded is the last fetched page's last id regardless of how many
customers on a page were eligible: in the concrete run below an all-filtered
page is consumed and the cursor still advances past it. -/
theorem C4_accumulation_rule :
    (∀ (dir : List Customer) (unsub sendOk : JStr → Bool) (persistOk : Bool) (now fuel : Nat)
        (camp : Campaign) (r : Recipient),
        r ∈ (runCampaign (dirFetch dir) unsub sendOk persistOk now fuel camp).collected →
        ∃ c ∈ dir, c.email ≠ [] ∧ segMatches camp.segment c = true ∧
          r = ⟨c.id, normEmail c.email⟩) ∧
    (∀ (fetch : FetchFn) (unsub sendOk : JStr → Bool) (persistOk : Bool) (now fuel : Nat)
        (camp : Campaign),
        (runCampaign fetch unsub sendOk persistOk now fuel camp).collected.length ≤
            effPerHour camp ∧
          (camp.sent_count ≤ effTotalCap camp →
            camp.sent_count +
                (runCampaign fetch unsub sendOk persistOk now fuel camp).collected.length ≤
              effTotalCap camp)) ∧
    (∀ (fetch : FetchFn) (u1 s1 : JStr → Bool) (p1 : Bool) (u2 s2 : JStr → Bool) (p2 : Bool)
        (now fuel : Nat) (camp : Campaign),
        (runCampaign fetch u1 s1 p1 now fuel camp).collected =
          (runCampaign fetch u2 s2 p2 now fuel camp).collected) ∧
    (runCampaign (dirFetch dirFiltered) noUnsub allOk true 0 10 campSegEn).resp =
        .ran 1 1 0 0 3 1 stActive ∧
    (runCampaign (dirFetch dirFiltered) noUnsub allOk true 0 10 campSegEn).collected =
      [⟨3, jstr "e@x.com"⟩] := by
  exact ⟨runCampaign_collected_mem, runCampaign_collected_bounds,
    runCampaign_collected_indep, by decide, by decide⟩

/-- C4 amended witness: the membership rule applied to the recipient
collected in the all-filtered-page run, and the bound applied there. -/
theorem C4_accumulation_rule_witness :
    (∃ c ∈ dirFiltered, c.email ≠ [] ∧ segMatches campSegEn.segment c = true ∧
        (⟨3, jstr "e@x.com"⟩ : Recipient) = ⟨c.id, normEmail c.email⟩) ∧
      campSegEn.sent_count +
          (runCampaign (dirFetch dirFiltered) noUnsub allOk true 0 10 campSegEn).collected.length
        ≤ effTotalCap campSegEn :=
  ⟨C4_accumulation_rule.1 dirFiltered noUnsub allOk true 0 10 campSegEn ⟨3, jstr "e@x.com"⟩
      (by decide),
   (C4_accumulation_rule.2.1 (dirFetch dirFiltered) noUnsub allOk true 0 10 campSegEn).2
      (by decide)⟩

/-- C5 counterexample: the candidate set the source builds is not the one
the claim enumerates.  A customer with no locale and the single free-text tag
vip — neither a bare two-letter tag, nor a lang-code tag, nor a tag
resembling a full locale — is matched by segment vip, because the source
includes every normalised tag verbatim in the candidate set, while the set
described by the claim does not contain vip. -/
theorem C5_candidate_set_counterexample :
    segMatches (some (jstr "vip")) custVip = true ∧
      (jstr "vip") ∉ specCandidateKeys custVip := by
  exact ⟨by decide, by decide⟩

/-- C5 amended: a non-empty segment (normalised by trim and lower-casing at
match time) matches exactly when it is a member of the candidate set the
source builds, which consists of the customer's normalised full locale, its
base language, the code stripped from the first lang-code tag (else the first
bare two-letter tag), every tag resembling a full locale together with its
first two characters, and every normalised tag verbatim; an empty or absent
segment matches everyone.  The claim's concrete consequences survive: with
locale en-GB and tag lang-en, segments en and en-gb match and fr does not,
and segment en-gb does not match a customer whose only signal is the base
language en.  Beyond the claim's enumeration, segment vip matches a customer
tagged vip, segment fr matches a customer whose only tag is fr-ca (through
the first two characters of the locale-like tag), and only the first
lang-code tag contributes its stripped code: a customer tagged lang-en and
lang-fr is not matched by segment fr even though the claim's candidate set
contains fr for it. -/
theorem C5_segmentation_rule :
    (∀ c : Customer, segMatches none c = true ∧ segMatches (some []) c = true) ∧
    (∀ (c : Customer) (seg : JStr),
        segMatches (some seg) c = true ↔
          (jsToLower (jsTrim seg) = [] ∨
            jsToLower (jsTrim seg) ∈ candidateKeys c.locale c.tags)) ∧
    segMatches (some (jstr "en")) custEnGB = true ∧
    segMatches (some (jstr "en-gb")) custEnGB = true ∧
    segMatches (some (jstr "fr")) custEnGB = false ∧
    segMatches (some (jstr "en-gb")) custBaseOnly = false ∧
    segMatches (some (jstr "vip")) custVip = true ∧
    segMatches (some (jstr "fr")) custFrCa = true ∧
      (jstr "fr") ∉ specCandidateKeys custFrCa ∧
    segMatches (some (jstr "fr")) custTwoLang = false ∧
      (jstr "fr") ∈ specCandidateKeys custTwoLang := by
  refine ⟨?_, ?_, by decide, by decide, by decide, by decide, by decide, by decide, by decide,
    by decide, by decide⟩
  · intro c
    exact ⟨rfl, rfl⟩
  · intro c seg
    simp only [segMatches, campSegmentNorm, Option.getD_some, Bool.or_eq_true,
      decide_eq_true_eq, List.contains, List.elem_eq_mem, decide_eq_true_eq]

/-- C5 amended witness: the membership rule evaluated for segment en-gb
against the en-GB customer. -/
theorem C5_segmentation_rule_witness :
    jsToLower (jsTrim (jstr "en-gb")) = [] ∨
      jsToLower (jsTrim (jstr "en-gb")) ∈ candidateKeys custEnGB.locale custEnGB.tags :=
  (C5_segmentation_rule.2.1 custEnGB (jstr "en-gb")).1 (by decide)

/-- C6: when the paging phase throws — a directory page call failed after the
retry loop gave up, or failed outright — the invocation is aborted: nothing
was mailed, nothing was collected, the lock is released, every progress field
of the stored row (counters, cursor, status, last-run-at) keeps its previous
value, and the caller is answered with the failure response. -/
theorem C6_directory_failure_aborts :
    ∀ (fetch : FetchFn) (unsub sendOk : JStr → Bool) (persistOk : Bool) (now fuel : Nat)
      (camp : Campaign) (e : DirErr),
      camp.status = stActive →
      (acquireCampaignLock now defaultLockMs camp).2 = true →
      collectLoop fetch camp.segment (effPerHour camp) (effTotalCap camp) camp.sent_count fuel
          camp.since_id [] = .error e →
      runCampaign fetch unsub sendOk persistOk now fuel camp =
        ⟨.runFailed, { camp with lock_until := none }, [], []⟩ := by
  intro fetch unsub sendOk persistOk now fuel camp e hActive hacq hcoll
  rw [runCampaign_eq_runLocked hActive (acquire_of_snd_true hacq)]
  simp only [runLocked]
  have hcoll2 : collectLoop fetch
        ({ camp with lock_until := some (now + leaseSeconds defaultLockMs)} : Campaign).segment
        (effPerHour { camp with lock_until := some (now + leaseSeconds defaultLockMs) })
        (effTotalCap { camp with lock_until := some (now + leaseSeconds defaultLockMs) })
        ({ camp with lock_until := some (now + leaseSeconds defaultLockMs)} : Campaign).sent_count
        fuel
        ({ camp with lock_until := some (now + leaseSeconds defaultLockMs)} : Campaign).since_id
        [] = .error e := hcoll
  rw [hcoll2]
  rfl

/-- C6 witness: a concrete invocation against a directory that always throws
answers the failure response, releases the lock and leaves the row
unchanged. -/
theorem C6_directory_failure_witness :
    runCampaign failFetch noUnsub allOk true 0 5 campScenario =
      ⟨.runFailed, { campScenario with lock_until := none }, [], []⟩ :=
  C6_directory_failure_aborts failFetch noUnsub allOk true 0 5 campScenario .unavailable
    (by decide) (by decide) (by rfl)

theorem retryAux_ge (resp : Nat → FetchAttempt) :
    ∀ (rem k : Nat), k ≤ (retryAux resp k rem).1 := by
  intro rem
  induction rem with
  | zero =>
    intro k
    rw [retryAux]
    cases h : resp k <;> simp
  | succ r ih =>
    intro k
    rw [retryAux]
    cases h : resp k <;> dsimp only
    · have := ih (k + 1)
      omega
    · exact Nat.le_refl k
    · exact Nat.le_refl k

theorem retryAux_le (resp : Nat → FetchAttempt) :
    ∀ (rem k : Nat), (retryAux resp k rem).1 ≤ k + rem := by
  intro rem
  induction rem with
  | zero =>
    intro k
    rw [retryAux]
    cases h : resp k <;> simp
  | succ r ih =>
    intro k
    rw [retryAux]
    cases h : resp k <;> dsimp only
    · have := ih (k + 1)
      omega
    · omega
    · omega

theorem retryAux_first_stop (resp : Nat → FetchAttempt) :
    ∀ (rem k j : Nat),
      (∀ i, k ≤ i → i < j → isRateLimited (resp i) = true) →
      isRateLimited (resp j) = false → k ≤ j → j ≤ k + rem →
      (retryAux resp k rem).1 = j := by
  intro rem
  induction rem with
  | zero =>
    intro k j hrl hj hkj hjk
    have hkj2 : j = k := by omega
    subst hkj2
    rw [retryAux]
    cases h : resp j <;> rw [h] at hj
  | succ r ih =>
    intro k j hrl hj hkj hjk
    by_cases hk : j = k
    · subst hk
      rw [retryAux]
      cases h : resp j <;> rw [h] at hj
      simp [isRateLimited] at hj
    · have hklt : k < j := by omega
      have hrlk := hrl k (Nat.le_refl k) hklt
      rw [retryAux]
      cases h : resp k <;> rw [h] at hrlk
      · dsimp only
        exact ih (k + 1) j (fun i hi1 hi2 => hrl i (by omega) hi2) hj (by omega) (by omega)
      · simp [isRateLimited] at hrlk
      · simp [isRateLimited] at hrlk

theorem retryAux_all_rl (resp : Nat → FetchAttempt) :
    ∀ (rem k : Nat),
      (∀ i, k ≤ i → i ≤ k + rem → isRateLimited (resp i) = true) →
      (retryAux resp k rem).1 = k + rem := by
  intro rem
  induction rem with
  | zero =>
    intro k hrl
    rw [retryAux]
    cases h : resp k <;> simp
  | succ r ih =>
    intro k hrl
    have hrlk := hrl k (Nat.le_refl k) (by omega)
    rw [retryAux]
    cases h : resp k <;> rw [h] at hrlk
    · dsimp only
      have := ih (k + 1) (fun i hi1 hi2 => hrl i (by omega) (by omega))
      omega
    · simp [isRateLimited] at hrlk
    · simp [isRateLimited] at hrlk

theorem retryAux_waits (resp : Nat → FetchAttempt) :
    ∀ (rem k : Nat),
      (retryAux resp k rem).2 =
        (List.range ((retryAux resp k rem).1 - k)).map
          (fun i => backoffWait (hintOf (resp (k + i))) (k + i + 1)) := by
  intro rem
  induction rem with
  | zero =>
    intro k
    rw [retryAux]
    cases h : resp k <;> simp
  | succ r ih =>
    intro k
    rw [retryAux]
    cases h : resp k <;> dsimp only
    · rename_i hint
      have hge := retryAux_ge resp r (k + 1)
      have hsub : (retryAux resp (k + 1) r).1 - k = ((retryAux resp (k + 1) r).1 - (k + 1)) + 1 := by
        omega
      rw [hsub, List.range_succ_eq_map, List.map_cons, List.map_map]
      refine congrArg₂ List.cons ?_ ?_
      · simp [h, hintOf]
      · rw [ih (k + 1)]
        apply List.map_congr_left
        intro i hi
        simp only [Function.comp_apply]
        rw [show k + (i + 1) = k + 1 + i by omega]
    · simp
    · simp

/-- C7: the retry loop reissues the same request only after rate-limit
answers: it stops at the first non-rate-limit answer when that comes within
the bound; it never issues more than maxRetries retries; exhausting the bound
on an all-429 schedule makes fetchShopifyCustomers throw (the
DirectoryUnavailable of the invocation) after the (maxRetries+1)-th issue;
a non-rate-limit failure on the first answer — a transport error or an error
status — ends the loop at once, with no retry, and also throws; and the
backoff slept before retry i+1 is min(5000ms, hint * 1000 * (i+1)) where hint
is the Retry-After value of the i-th answer, defaulting to 1 second when the
header is absent or unparsable. -/
theorem C7_rate_limit_retry :
    (∀ (resp : Nat → FetchAttempt) (maxRetries j : Nat),
        (∀ i, i < j → isRateLimited (resp i) = true) →
        isRateLimited (resp j) = false → j ≤ maxRetries →
        (shopifyFetchWithRetry resp maxRetries).1 = j) ∧
    (∀ (resp : Nat → FetchAttempt) (maxRetries : Nat),
        (shopifyFetchWithRetry resp maxRetries).1 ≤ maxRetries) ∧
    (∀ resp : Nat → FetchAttempt,
        (∀ i, i ≤ 6 → isRateLimited (resp i) = true) →
        fetchShopifyCustomersOutcome resp = .unavailable 7) ∧
    (∀ (resp : Nat → FetchAttempt) (maxRetries : Nat),
        isRateLimited (resp 0) = false → (shopifyFetchWithRetry resp maxRetries).1 = 0) ∧
    (∀ resp : Nat → FetchAttempt,
        (∀ status, resp 0 = .response status → httpOk status = false) →
        isRateLimited (resp 0) = false →
        fetchShopifyCustomersOutcome resp = .unavailable 1) ∧
    (∀ (resp : Nat → FetchAttempt) (maxRetries : Nat),
        (shopifyFetchWithRetry resp maxRetries).2 =
          (List.range (shopifyFetchWithRetry resp maxRetries).1).map
            (fun i => backoffWait (hintOf (resp i)) (i + 1))) := by
  refine ⟨?_, ?_, ?_, ?_, ?_, ?_⟩
  · intro resp maxRetries j hrl hj hjm
    exact retryAux_first_stop resp maxRetries 0 j (fun i _ hij => hrl i hij) hj (Nat.zero_le j)
      (by omega)
  · intro resp maxRetries
    have := retryAux_le resp maxRetries 0
    simpa [shopifyFetchWithRetry] using this
  · intro resp hrl
    have hfst : (retryAux resp 0 6).1 = 6 :=
      retryAux_all_rl resp 6 0 (fun i _ hi => hrl i (by omega))
    have h6 := hrl 6 (Nat.le_refl 6)
    cases h : resp 6 <;> rw [h] at h6
    · simp [fetchShopifyCustomersOutcome, shopifyFetchWithRetry, hfst, h]
    · simp [isRateLimited] at h6
    · simp [isRateLimited] at h6
  · intro resp maxRetries h0
    exact retryAux_first_stop resp maxRetries 0 0 (fun i hi1 hi2 => absurd hi2 (by omega)) h0
      (Nat.le_refl 0) (Nat.zero_le _)
  · intro resp hbad h0
    have hfst : (retryAux resp 0 6).1 = 0 :=
      retryAux_first_stop resp 6 0 0 (fun i hi1 hi2 => absurd hi2 (by omega)) h0
        (Nat.le_refl 0) (Nat.zero_le _)
    cases h : resp 0 <;> rw [h] at h0
    · simp [isRateLimited] at h0
    · rename_i status
      have := hbad status h
      simp [fetchShopifyCustomersOutcome, shopifyFetchWithRetry, hfst, h, this]
    · simp [fetchShopifyCustomersOutcome, shopifyFetchWithRetry, hfst, h]
  · intro resp maxRetries
    have := retryAux_waits resp maxRetries 0
    simp only [shopifyFetchWithRetry, Nat.sub_zero] at this ⊢
    rw [this]
    apply List.map_congr_left
    intro i hi
    rw [show (0 : Nat) + i = i by omega]

/-- C7 witness: one 429 with a 2-second hint then success stops at the second
issue after a single 2000ms backoff; an all-429 schedule throws after seven
issues; an immediate 500 throws after one issue with no retry. -/
theorem C7_rate_limit_retry_witness :
    (shopifyFetchWithRetry respOneRL 6).1 = 1 ∧
    fetchShopifyCustomersOutcome respAllRL = .unavailable 7 ∧
    fetchShopifyCustomersOutcome respServerErr = .unavailable 1 ∧
    (shopifyFetchWithRetry respOneRL 6).2 = [2000] := by
  have h1 := C7_rate_limit_retry.1 respOneRL 6 1
    (fun i hi => by
      have : i = 0 := by omega
      subst this
      decide)
    (by decide) (by decide)
  refine ⟨h1, ?_, ?_, ?_⟩
  · exact C7_rate_limit_retry.2.2.1 respAllRL (fun i _ => rfl)
  · exact C7_rate_limit_retry.2.2.2.2.1 respServerErr
      (fun status h => by
        simp only [respServerErr, FetchAttempt.response.injEq] at h
        rw [← h]
        decide)
      (by decide)
  · rw [C7_rate_limit_retry.2.2.2.2.2 respOneRL 6, h1]
    decide

/-- C8: in any invocation that ran a batch, the reported sent, failed and
skipped counts sum to the attempted slice size, which never exceeds the
effective per-invocation limit; for a campaign whose stored per-hour limit is
non-zero that limit itself is the bound. -/
theorem C8_per_invocation_sum_bound :
    ∀ (fetch : FetchFn) (unsub sendOk : JStr → Bool) (persistOk : Bool) (now fuel : Nat)
      (camp : Campaign) (a s f k since ts : Nat) (st : JStr),
      (runCampaign fetch unsub sendOk persistOk now fuel camp).resp =
        .ran a s f k since ts st →
      s + f + k = a ∧ a ≤ effPerHour camp ∧
        (camp.per_hour_limit ≠ 0 → s + f + k ≤ camp.per_hour_limit) := by
  intro fetch unsub sendOk persistOk now fuel camp a s f k since ts st h
  obtain ⟨-, toSend, hcoll, ha, hs, hf, hk, -, -⟩ := runCampaign_ran_inv h
  have hsum := (sendLoop_counts unsub sendOk toSend).1
  have hb := (collectLoop_ok_bounds fetch camp.segment (effPerHour camp) (effTotalCap camp)
      camp.sent_count fuel camp.since_id [] (toSend, since) hcoll).1 (Nat.zero_le _)
  have hb2 : toSend.length ≤ effPerHour camp := hb
  subst ha hs hf hk
  refine ⟨hsum, hb2, fun h0 => ?_⟩
  have heq : effPerHour camp = camp.per_hour_limit := by simp [effPerHour, h0]
  omega

/-- C8 witness: the bound evaluated on the first invocation of the paging
scenario (2 sent, 0 failed, 0 skipped, limit 2). -/
theorem C8_per_invocation_sum_bound_witness :
    (2 : Nat) + 0 + 0 = 2 ∧ (2 : Nat) ≤ effPerHour campScenario ∧
      (campScenario.per_hour_limit ≠ 0 → (2 : Nat) + 0 + 0 ≤ campScenario.per_hour_limit) :=
  C8_per_invocation_sum_bound (dirFetch dirThree) noUnsub allOk true 0 10 campScenario
    2 2 0 0 2 2 stActive (by decide)

theorem runCampaign_ran_outputs {fetch : FetchFn} {unsub sendOk : JStr → Bool}
    {persistOk : Bool} {now fuel : Nat} {camp : Campaign} {a s f k since ts : Nat} {st : JStr}
    (h : (runCampaign fetch unsub sendOk persistOk now fuel camp).resp =
      .ran a s f k since ts st) :
    ∃ toSend : List Recipient,
      (runCampaign fetch unsub sendOk persistOk now fuel camp).collected = toSend ∧
      (runCampaign fetch unsub sendOk persistOk now fuel camp).mailed =
        (sendLoop unsub sendOk toSend).mailed ∧
      s = (sendLoop unsub sendOk toSend).sent ∧
      f = (sendLoop unsub sendOk toSend).failed ∧
      k = (sendLoop unsub sendOk toSend).skipped := by
  simp only [runCampaign] at h ⊢
  split at h
  · rename_i hActive
    simp only [hActive, if_pos]
    split at h
    · rename_i camp1 heq
      simp only [runLocked] at h ⊢
      split at h
      · simp at h
      · rename_i toSend since0 hcoll
        simp only [commitPhase, RespKind.ran.injEq] at h ⊢
        obtain ⟨-, hs, hf, hk, -, -, -⟩ := h
        exact ⟨toSend, rfl, rfl, hs.symm, hf.symm, hk.symm⟩
    · simp at h
  · simp at h

/-- C9: an address in the Suppression Registry is never handed to the
mailer: every mailed address tests unsuppressed; the skipped count of an
invocation is exactly the number of collected recipients whose address is in
the registry, counted before any send attempt; and the cursor the invocation
reports does not depend on the suppression registry or the mailer at all, so
a page of suppressed customers advances it just as any other page: in the
concrete run both customers of the single page are suppressed, nothing is
mailed, skipped is 2, and the persisted cursor has advanced past the page to
id 7. -/
theorem C9_suppressed_never_mailed :
    (∀ (fetch : FetchFn) (unsub sendOk : JStr → Bool) (persistOk : Bool) (now fuel : Nat)
        (camp : Campaign) (e : JStr),
        e ∈ (runCampaign fetch unsub sendOk persistOk now fuel camp).mailed →
        unsub (normEmail e) = false) ∧
    (∀ (fetch : FetchFn) (unsub sendOk : JStr → Bool) (persistOk : Bool) (now fuel : Nat)
        (camp : Campaign) (a s f k since ts : Nat) (st : JStr),
        (runCampaign fetch unsub sendOk persistOk now fuel camp).resp =
          .ran a s f k since ts st →
        k = ((runCampaign fetch unsub sendOk persistOk now fuel camp).collected.filter
              (fun r => unsub (normEmail r.email))).length) ∧
    (∀ (fetch : FetchFn) (u1 s1 : JStr → Bool) (p1 : Bool) (u2 s2 : JStr → Bool) (p2 : Bool)
        (now fuel : Nat) (camp : Campaign),
        respSince (runCampaign fetch u1 s1 p1 now fuel camp).resp =
          respSince (runCampaign fetch u2 s2 p2 now fuel camp).resp) ∧
    (runCampaign (dirFetch dirSupPage) unsubBoth allOk true 0 10 campScenario).resp =
        .ran 2 0 0 2 7 0 stActive ∧
    (runCampaign (dirFetch dirSupPage) unsubBoth allOk true 0 10 campScenario).mailed = [] ∧
    (runCampaign (dirFetch dirSupPage) unsubBoth allOk true 0 10 campScenario).final.since_id
      = 7 := by
  refine ⟨?_, ?_, runCampaign_cursor_indep, by decide, by decide, by decide⟩
  · intro fetch unsub sendOk persistOk now fuel camp e he
    simp only [runCampaign] at he
    split at he
    · split at he
      · rename_i camp1 heq
        simp only [runLocked] at he
        split at he
        · simp at he
        · simp only [commitPhase] at he
          exact sendLoop_mailed_not_suppressed unsub sendOk _ e he
      · simp at he
    · simp at he
  · intro fetch unsub sendOk persistOk now fuel camp a s f k since ts st h
    obtain ⟨toSend, hc, -, -, -, hk⟩ := runCampaign_ran_outputs h
    rw [hc, hk]
    exact (sendLoop_counts unsub sendOk toSend).2

/-- C9 witness: the mailed-exclusion rule applied to the quota-one run, whose
only mailed list is empty, and the skipped-count rule applied there. -/
theorem C9_suppressed_never_mailed_witness :
    (2 : Nat) = ((runCampaign (dirFetch dirSupPage) unsubBoth allOk true 0 10
        campScenario).collected.filter
          (fun r => unsubBoth (normEmail r.email))).length :=
  C9_suppressed_never_mailed.2.1 (dirFetch dirSupPage) unsubBoth allOk true 0 10 campScenario
    2 0 0 2 7 0 stActive (by decide)

/-- C10: when the terminal UPDATE of a successful batch fails, the caller is
still answered ok with the freshly computed counters, cursor and status — the
response does not depend on the persistence outcome, which the source never
awaits — while the stored row keeps all its previous counters, cursor, status
and last-run timestamp, and its lock lease stays set (the release is part of
the same failed UPDATE), so it holds until the lease expires. -/
theorem C10_persistence_failure_response :
    ∀ (fetch : FetchFn) (unsub sendOk : JStr → Bool) (now fuel : Nat) (camp : Campaign)
      (p : List Recipient × Nat),
      camp.status = stActive →
      (acquireCampaignLock now defaultLockMs camp).2 = true →
      collectLoop fetch camp.segment (effPerHour camp) (effTotalCap camp) camp.sent_count fuel
          camp.since_id [] = .ok p →
      (runCampaign fetch unsub sendOk false now fuel camp).resp =
          (runCampaign fetch unsub sendOk true now fuel camp).resp ∧
        (runCampaign fetch unsub sendOk false now fuel camp).mailed =
          (runCampaign fetch unsub sendOk true now fuel camp).mailed ∧
        (∃ st : JStr,
          (runCampaign fetch unsub sendOk false now fuel camp).resp =
            .ran p.1.length (sendLoop unsub sendOk p.1).sent (sendLoop unsub sendOk p.1).failed
              (sendLoop unsub sendOk p.1).skipped p.2
              (camp.sent_count + (sendLoop unsub sendOk p.1).sent) st) ∧
        (runCampaign fetch unsub sendOk false now fuel camp).final =
          { camp with lock_until := some (now + leaseSeconds defaultLockMs) } := by
  intro fetch unsub sendOk now fuel camp p hActive hacq hcoll
  obtain ⟨toSend, since⟩ := p
  rw [runCampaign_eq_runLocked hActive (acquire_of_snd_true hacq)]
  rw [runCampaign_eq_runLocked hActive (acquire_of_snd_true hacq)]
  simp only [runLocked]
  have hcoll2 : collectLoop fetch
      ({ camp with lock_until := some (now + leaseSeconds defaultLockMs)} : Campaign).segment
      (effPerHour { camp with lock_until := some (now + leaseSeconds defaultLockMs) })
      (effTotalCap { camp with lock_until := some (now + leaseSeconds defaultLockMs) })
      ({ camp with lock_until := some (now + leaseSeconds defaultLockMs)} : Campaign).sent_count
      fuel
      ({ camp with lock_until := some (now + leaseSeconds defaultLockMs)} : Campaign).since_id
      [] = .ok (toSend, since) := hcoll
  rw [hcoll2]
  exact ⟨rfl, rfl, ⟨_, rfl⟩, rfl⟩

/-- C10 witness: the paging scenario with a failing terminal update answers
the same response as with a succeeding one, reports the fresh counters and
cursor, and leaves the stored row at its old counters with the lock lease
still set. -/
theorem C10_persistence_failure_witness :
    (runCampaign (dirFetch dirThree) noUnsub allOk false 0 10 campScenario).resp =
        (runCampaign (dirFetch dirThree) noUnsub allOk true 0 10 campScenario).resp ∧
      (runCampaign (dirFetch dirThree) noUnsub allOk false 0 10 campScenario).mailed =
        (runCampaign (dirFetch dirThree) noUnsub allOk true 0 10 campScenario).mailed ∧
      (∃ st : JStr,
        (runCampaign (dirFetch dirThree) noUnsub allOk false 0 10 campScenario).resp =
          .ran ([⟨1, jstr "a@x.com"⟩, ⟨2, jstr "b@x.com"⟩] : List Recipient).length
            (sendLoop noUnsub allOk [⟨1, jstr "a@x.com"⟩, ⟨2, jstr "b@x.com"⟩]).sent
            (sendLoop noUnsub allOk [⟨1, jstr "a@x.com"⟩, ⟨2, jstr "b@x.com"⟩]).failed
            (sendLoop noUnsub allOk [⟨1, jstr "a@x.com"⟩, ⟨2, jstr "b@x.com"⟩]).skipped 2
            (campScenario.sent_count +
              (sendLoop noUnsub allOk [⟨1, jstr "a@x.com"⟩, ⟨2, jstr "b@x.com"⟩]).sent) st) ∧
      (runCampaign (dirFetch dirThree) noUnsub allOk false 0 10 campScenario).final =
        { campScenario with lock_until := some (0 + leaseSeconds defaultLockMs) } :=
  C10_persistence_failure_response (dirFetch dirThree) noUnsub allOk 0 10 campScenario
    (⟨[⟨1, jstr "a@x.com"⟩, ⟨2, jstr "b@x.com"⟩], 2⟩ : List Recipient × Nat)
    (by decide) (by decide) (by rfl)

end LotteryDispatch
